import Mathlib

/-!
Verification of the pdf-lingua translation pipeline.

This file gives a shallow embedding of the core of the repository:
the job state machine (src/lib/services/jobService.ts), the background
pipeline runner (the upload route and its processJob, extractAndTranslate,
generateFinalPdfs chain), the batching, dispatch and reinsertion logic of
src/lib/services/pdfService.ts, and the SSE progress route
(src/app/api/jobs/[jobId]/progress/route.ts).  Each definition is a direct
translation of the corresponding TypeScript; theorems settle the frozen
claims about the specification.
-/

namespace PdfLingua

/-- Prisma enum JobStatus (schema.prisma). -/
inductive JobStatus
| QUEUED
| PROCESSING
| COMPLETED
| FAILED
deriving DecidableEq, Repr

/-- Prisma enum ProcessStep (schema.prisma). -/
inductive ProcessStep
| UPLOAD
| EXTRACT
| TRANSLATE
| GENERATE
deriving DecidableEq, Repr

/-- Terminal job states per the specification: COMPLETED and FAILED. -/
def JobStatus.isTerminal : JobStatus → Bool
| .COMPLETED => true
| .FAILED => true
| _ => false

/-- The Job row (schema.prisma model Job, fields relevant to the state
machine; id and timestamps are omitted as no claim mentions them). -/
structure Job where
  status : JobStatus
  currentStep : Option ProcessStep
  percentage : Nat
  language : String
deriving DecidableEq, Repr

/-- JobService.createJob (jobService.ts lines 18-27): creates a row with
status QUEUED, currentStep UPLOAD, percentage 0 and the given language. -/
def createJob (language : String) : Job :=
  { status := .QUEUED
    currentStep := some .UPLOAD
    percentage := 0
    language := language }

/-- JobService.updateJobProgress (jobService.ts lines 87-101): a plain
prisma.job.update that overwrites status, currentStep and percentage with
the supplied arguments.  The body contains no read of the current row and
no guard of any kind. -/
def updateJobProgress (j : Job) (status : JobStatus) (step : ProcessStep)
    (percentage : Nat) : Job :=
  { j with
    status := status
    currentStep := some step
    percentage := percentage }

/-- One call to updateJobProgress as issued by the pipeline runner:
the argument triple (status, step, percentage). -/
structure JobUpdate where
  status : JobStatus
  step : ProcessStep
  percentage : Nat
deriving DecidableEq, Repr

/-- Outcome of one stage body of the background pipeline
(upload/route.ts processJob, extractAndTranslate, generateFinalPdfs).
Every stage body is a try block whose awaited operations (prisma calls,
mkdir, delays) may reject; the catch clause then issues the FAILED update
of that stage.  `errBefore` models a rejection before the stage wrote its
own PROCESSING progress update, `errAfter` one after it. -/
inductive StageOutcome
| ok
| errBefore
| errAfter
deriving DecidableEq, Repr

/-- Updates issued by generateFinalPdfs (upload route, lines 380-461):
on entry it writes PROCESSING/GENERATE/100; the per-file translate and
generate loop catches its own errors (lines 436-438) and so never reaches
the outer catch; on success it writes COMPLETED/GENERATE/100; an error
escaping the body is answered by the catch with FAILED/TRANSLATE/75. -/
def generateFinalPdfsWrites : StageOutcome → List JobUpdate
| .ok => [⟨.PROCESSING, .GENERATE, 100⟩, ⟨.COMPLETED, .GENERATE, 100⟩]
| .errBefore => [⟨.FAILED, .TRANSLATE, 75⟩]
| .errAfter => [⟨.PROCESSING, .GENERATE, 100⟩, ⟨.FAILED, .TRANSLATE, 75⟩]

/-- Updates issued by extractAndTranslate (upload route, lines 312-378):
each file is converted inside its own try/catch (lines 334-350), so a
pdf2htmlEX failure is logged and the file skipped without any job update;
the stage then writes PROCESSING/TRANSLATE/75 and schedules
generateFinalPdfs; an error escaping the body is answered by the catch
with FAILED/EXTRACT/50.  The write sequence is therefore independent of
the per-file conversion outcomes. -/
def extractAndTranslateWrites (o2 o3 : StageOutcome) : List JobUpdate :=
  match o2 with
  | .ok => ⟨.PROCESSING, .TRANSLATE, 75⟩ :: generateFinalPdfsWrites o3
  | .errBefore => [⟨.FAILED, .EXTRACT, 50⟩]
  | .errAfter => [⟨.PROCESSING, .TRANSLATE, 75⟩, ⟨.FAILED, .EXTRACT, 50⟩]

/-- The extractedContents list built by extractAndTranslate
(upload route, lines 326-351): the indices of the files whose
convertPdfToHtml call succeeded; a file whose conversion rejects is
caught at lines 345-350 and contributes nothing. -/
def extractedContents (convertOk : List Bool) : List Nat :=
  (List.range convertOk.length).filter (fun i => convertOk.getD i false)

/-- extractAndTranslate as a whole: the job updates it issues and the
extracted contents handed on to generateFinalPdfs. -/
def extractAndTranslateModel (convertOk : List Bool) (o2 o3 : StageOutcome) :
    List JobUpdate × List Nat :=
  (extractAndTranslateWrites o2 o3, extractedContents convertOk)

/-- Updates issued by processJob (upload route, lines 259-309): on success
it writes PROCESSING/EXTRACT/50 and schedules extractAndTranslate; an
error escaping the body is answered by the catch with FAILED/UPLOAD/0. -/
def processJobWrites (o1 o2 o3 : StageOutcome) : List JobUpdate :=
  match o1 with
  | .ok => ⟨.PROCESSING, .EXTRACT, 50⟩ :: extractAndTranslateWrites o2 o3
  | .errBefore => [⟨.FAILED, .UPLOAD, 0⟩]
  | .errAfter => [⟨.PROCESSING, .EXTRACT, 50⟩, ⟨.FAILED, .UPLOAD, 0⟩]

/-- The full sequence of job-row states written for one job: createJob
(QUEUED/UPLOAD/0, upload route line 205), the upload route's explicit
PROCESSING/UPLOAD/25 update (lines 238-243), then the background chain
processJob → extractAndTranslate → generateFinalPdfs. -/
def pipelineModel (o1 o2 o3 : StageOutcome) : List JobUpdate :=
  ⟨.QUEUED, .UPLOAD, 0⟩ :: ⟨.PROCESSING, .UPLOAD, 25⟩ ::
    processJobWrites o1 o2 o3

/-- The fixed percentage each FAILED handler attaches to the step it
names: the processJob catch writes UPLOAD/0, the extractAndTranslate
catch EXTRACT/50, the generateFinalPdfs catch TRANSLATE/75. -/
def stepPct : ProcessStep → Nat
| .UPLOAD => 0
| .EXTRACT => 50
| .TRANSLATE => 75
| .GENERATE => 100

/-- The sequence of snapshots delivered by one polling tick chain of the
SSE progress route (progress/route.ts lines 47-55): each tick sends the
current job snapshot and then, if that snapshot is terminal, clears the
interval and closes the stream.  The argument is the job status observed
at each successive tick while the stream is open. -/
def sseTicks : List JobStatus → List JobStatus
| [] => []
| s :: rest => s :: (if s.isTerminal then [] else sseTicks rest)

/-- Everything the SSE route enqueues (progress/route.ts lines 43-55):
the unconditional initial sendEvent at connect (line 44), followed by the
tick deliveries.  The job is assumed to stay present in the database; the
claims under study only concern terminal-status delivery. -/
def sseEvents (initial : JobStatus) (ticks : List JobStatus) :
    List JobStatus :=
  initial :: sseTicks ticks

/-- TextChunk (pdfService.ts lines 19-23). -/
structure TextChunk where
  id : String
  text : String
  context : Option String
deriving DecidableEq, Repr

/-- The character budget of one translation batch
(pdfService.ts line 165). -/
def MAX_BATCH_SIZE : Nat := 4000

/-- Total character count of a batch, the quantity the source tracks in
its currentBatchSize accumulator. -/
def batchSize (b : List TextChunk) : Nat :=
  (b.map (fun c => c.text.length)).sum

/-- The batching loop of PdfService.translateHtml (pdfService.ts lines
162-184): a chunk closes the open batch when adding it would exceed
MAX_BATCH_SIZE and the open batch is non-empty; the chunk is then pushed
onto the (possibly fresh) open batch; a final non-empty open batch is
pushed after the loop. -/
def makeBatchesLoop :
    List TextChunk → List TextChunk → Nat → List (List TextChunk)
| [], currentBatch, _ =>
    if 0 < currentBatch.length then [currentBatch] else []
| chunk :: rest, currentBatch, currentBatchSize =>
    if MAX_BATCH_SIZE < currentBatchSize + chunk.text.length ∧
        0 < currentBatch.length then
      currentBatch :: makeBatchesLoop rest [chunk] chunk.text.length
    else
      makeBatchesLoop rest (currentBatch ++ [chunk])
        (currentBatchSize + chunk.text.length)

/-- The batch list built for a chunk sequence (loop entered with an empty
open batch and a zero size accumulator). -/
def makeBatches (chunks : List TextChunk) : List (List TextChunk) :=
  makeBatchesLoop chunks [] 0

/-- How one batch request can settle, following the branches of
processBatch (pdfService.ts lines 193-260): the openai call rejects
(outer catch, lines 256-259), the response carries no content (lines
250-255), JSON.parse of the content throws (lines 243-249), or the
content parses to an item list (lines 240-242). -/
inductive BatchOutcome
| transportError
| emptyContent
| unparsable
| parsed (items : List TextChunk)
deriving DecidableEq, Repr

/-- processBatch (pdfService.ts lines 193-260): an empty batch is skipped
outright (line 198); otherwise every failure branch resolves with an
empty group and only a parsed response yields items.  Every branch
returns: the function never rejects. -/
def processBatch (batch : List TextChunk) (outcome : BatchOutcome) :
    List TextChunk :=
  if batch.isEmpty then []
  else
    match outcome with
    | .parsed items => items
    | _ => []

/-- The fan-out over batches (pdfService.ts lines 263-268):
batches.map((batch, index) => processBatch(batch, index, lang)) awaited
by Promise.all, which preserves order and resolves once every member
resolves; since processBatch never rejects, the barrier always yields one
group per batch.  The index argument threads the batchIndex. -/
def dispatchFrom (outcome : Nat → BatchOutcome) (i : Nat) :
    List (List TextChunk) → List (List TextChunk)
| [] => []
| b :: rest => processBatch b (outcome i) :: dispatchFrom outcome (i + 1) rest

/-- The settled value of Promise.all over all batches. -/
def dispatchBatches (batches : List (List TextChunk))
    (outcome : Nat → BatchOutcome) : List (List TextChunk) :=
  dispatchFrom outcome 0 batches

/-- ElementMapping (pdfService.ts lines 25-29): what translateHtml stores
per element id in its contentMap — the captured inner markup (which
cheerio may report as null, guarded at line 287) and the parent text.
The live element reference is modelled by the separate dom state below;
it is always present for ids stored in the map. -/
structure ElementMapping where
  html : Option String
  parentText : String
deriving DecidableEq, Repr

/-- The mutable document state: element id to current inner markup, the
effect of the $element.html(rebuiltHtml) writes at line 297. -/
def setAssoc : List (String × String) → String → String →
    List (String × String)
| [], _, _ => []
| (k, v) :: rest, key, nv =>
    if k = key then (k, nv) :: rest else (k, v) :: setAssoc rest key nv

/-- The translation application loop of translateHtml (pdfService.ts
lines 277-301), flattened over all result groups: each item looks up its
id in contentMap; missing ids and null captured markup are skipped;
otherwise the markup of the node is rebuilt and written to the element.
The rebuild call sits in NO try/catch: the loop body has none, so a
rebuild error propagates out of the loop (it is caught only by the
outer catch of translateHtml at lines 309-312, which rethrows a
file-level failure discarding the document).  `rebuild` abstracts
replaceTextWhilePreservingTags as run by the JS engine, which may throw;
the appliedTranslations counter (line 275) only feeds a log line and is
omitted. -/
def applyItems (rebuild : String → String → String → Except String String)
    (contentMap : List (String × ElementMapping)) :
    List TextChunk → List (String × String) →
    Except String (List (String × String))
| [], dom => .ok dom
| item :: rest, dom =>
    match contentMap.lookup item.id with
    | none => applyItems rebuild contentMap rest dom
    | some em =>
      match em.html with
      | none => applyItems rebuild contentMap rest dom
      | some originalHtml =>
        match rebuild originalHtml em.parentText item.text with
        | .error e => .error e
        | .ok rebuilt =>
            applyItems rebuild contentMap rest (setAssoc dom item.id rebuilt)

/-- The outer translatedBatches.forEach (line 277) visits the groups in
order and each group's items in order: the same as applying the loop body
to the concatenation of the groups. -/
def applyTranslationGroups
    (rebuild : String → String → String → Except String String)
    (contentMap : List (String × ElementMapping))
    (groups : List (List TextChunk)) (dom : List (String × String)) :
    Except String (List (String × String)) :=
  applyItems rebuild contentMap groups.flatten dom

/-- Truthiness of text.trim() in the node-collection callback
(pdfService.ts line 350): the text contains a non-whitespace character. -/
def hasContent (s : String) : Bool := s.data.any (fun c => !c.isWhitespace)

/-- JS startsWith(" ") on the leading character. -/
def startsWithSpace (s : String) : Bool :=
  match s.data with
  | c :: _ => c == ' '
  | [] => false

/-- JS endsWith(" ") on the trailing character. -/
def endsWithSpace (s : String) : Bool :=
  match s.data.getLast? with
  | some c => c == ' '
  | none => false

/-- JS s.substr(start, len): the contiguous slice of len characters
beginning at start, clamped to the end of the string. -/
def jsSubstr (s : String) (start len : Nat) : String :=
  ⟨(s.data.drop start).take len⟩

/-- JS s.substring(a, b) for a ≤ b: the characters of positions a to
b-1. -/
def jsSubstring (s : String) (a b : Nat) : String :=
  ⟨(s.data.take b).drop a⟩

/-- JS s.substring(a): the suffix from position a. -/
def jsSubstrFrom (s : String) (a : Nat) : String := ⟨s.data.drop a⟩

/-- One left-to-right pass of JS replace(/pat/g, "") on character lists:
at each position, a match of pat is removed and scanning resumes after
the removed occurrence (no rescan of the replacement site); otherwise
the character is kept.  The fuel argument only bounds the recursion
(each step consumes at least one character, so fuel equal to the input
length is never exhausted); it keeps the definition structurally
recursive.  Only called with non-empty patterns. -/
def removeAllAux (pat : List Char) : Nat → List Char → List Char
| _, [] => []
| 0, l => l
| fuel + 1, c :: rest =>
    if pat.isPrefixOf (c :: rest) then
      removeAllAux pat fuel (rest.drop (pat.length - 1))
    else
      c :: removeAllAux pat fuel rest

/-- JS s.replace(/pat/g, "") for a literal pattern. -/
def jsStripAll (s pat : String) : String :=
  ⟨removeAllAux pat.data s.data.length s.data⟩

/-- The three final sanitizer passes of replaceTextWhilePreservingTags
(pdfService.ts lines 499-505), in source order. -/
def jsStrip3 (s : String) : String :=
  jsStripAll (jsStripAll (jsStripAll s "undefined") "null") "NaN"

/-- Substring occurrence test (used to state the sanitization claims). -/
def containsSubAux (pat : List Char) : List Char → Bool
| [] => pat.isEmpty
| c :: rest => pat.isPrefixOf (c :: rest) || containsSubAux pat rest

/-- Whether pat occurs as a contiguous substring of s. -/
def containsSubstrB (s pat : String) : Bool := containsSubAux pat.data s.data

/-- JS text.split(/\s+/).filter(nonempty): the maximal runs of
non-whitespace characters, in order. -/
def tokensAux : List Char → List Char → List (List Char)
| [], acc => if acc.isEmpty then [] else [acc.reverse]
| c :: rest, acc =>
    if c.isWhitespace then
      if acc.isEmpty then tokensAux rest []
      else acc.reverse :: tokensAux rest []
    else tokensAux rest (c :: acc)

/-- The whitespace tokens of a string, as used for both word lists of
replaceTextWhilePreservingTags (pdfService.ts lines 378-383, 445). -/
def wsTokens (s : String) : List String :=
  (tokensAux s.data []).map (fun l => String.mk l)

/-- JS nodeText.indexOf(pat, start): position of the first occurrence of
pat at index ≥ start, if any. -/
def indexOfAux (pat : List Char) : List Char → Nat → Option Nat
| [], i => if pat.isEmpty then some i else none
| c :: rest, i =>
    if pat.isPrefixOf (c :: rest) then some i else indexOfAux pat rest (i + 1)

/-- Absolute-position indexOf with a fromIndex, as in pdfService.ts
line 479. -/
def jsIndexOfFrom (s pat : String) (start : Nat) : Option Nat :=
  (indexOfAux pat.data (s.data.drop start) 0).map (fun k => k + start)

/-- A node of the cheerio document tree loaded by
replaceTextWhilePreservingTags (pdfService.ts line 331): a text node or a
tag with children.  Attributes play no role in the reinsertion logic and
are not modelled; the function under study only reads text contents,
replaces text nodes and re-serializes. -/
inductive HNode
| text (s : String)
| tag (name : String) (children : List HNode)

mutual

/-- Serialization of one node ($root.html() restituting the markup). -/
def renderNode : HNode → String
| .text s => s
| .tag name children =>
    "<" ++ name ++ ">" ++ renderNodes children ++ "</" ++ name ++ ">"

/-- Serialization of a node list, in order. -/
def renderNodes : List HNode → String
| [] => ""
| n :: rest => renderNode n ++ renderNodes rest

end

mutual

/-- The text entries pushed by collectNodes (pdfService.ts lines
343-366) for one node: a text node is recorded when its trimmed text is
non-empty; a tag contributes its descendants in document order.  (The
tag entries also pushed by the source are filtered out again by every
consumer — lines 369, 388-390, 442 — and are not modelled.) -/
def collectTextsNode : HNode → List String
| .text s => if hasContent s then [s] else []
| .tag _ children => collectTextsList children

/-- In-order concatenation of the collected text runs of a node list. -/
def collectTextsList : List HNode → List String
| [] => []
| n :: rest => collectTextsNode n ++ collectTextsList rest

end

mutual

/-- Replacement of the collected text runs by position: the i-th
collectable text node (counting from the given index) receives news[i],
keeping its own text when news is exhausted; whitespace-only text nodes
and tags are untouched.  This is the combined effect of the
$(node).replaceWith(...) calls on the collected text nodes. -/
def substNode (news : List String) : HNode → Nat → HNode × Nat
| .text s, i =>
    if hasContent s then (.text (news.getD i s), i + 1) else (.text s, i)
| .tag name children, i =>
    let p := substList news children i
    (.tag name p.1, p.2)

/-- Positional replacement over a node list, threading the run index. -/
def substList (news : List String) : List HNode → Nat → List HNode × Nat
| [], i => ([], i)
| n :: rest, i =>
    let p := substNode news n i
    let q := substList news rest p.2
    (p.1 :: q.1, q.2)

end

/-- Replace the collected text runs of a tree by the given strings. -/
def substTexts (tree : List HNode) (news : List String) : List HNode :=
  (substList news tree 0).1

/-- Exact ceiling division on naturals: the value of
Math.ceil(a / b) for positive b.  The source computes
Math.ceil(translatedLength * (originalNodeLength / originalLength)) in
floating point (pdfService.ts lines 405-406); the model uses the exact
rational ceiling of the same product. -/
def ceilDivNat (a b : Nat) : Nat := (a + b - 1) / b

/-- The leading/trailing space re-application of the proportional branch
(pdfService.ts lines 414-426), applied sequentially: first the leading
space, then the trailing one on the possibly extended slice. -/
def spaceFix (orig slice : String) : String :=
  let s1 := if startsWithSpace orig && !startsWithSpace slice then
      " " ++ slice else slice
  if endsWithSpace orig && !endsWithSpace s1 then s1 ++ " " else s1

/-- The proportional redistribution loop (pdfService.ts lines 393-434):
each content-bearing run takes a slice of the translated text at the
running offset whose length is the ceiling of
translatedLength * runLength / originalLength, falls back to its own
text when the translation is empty, and re-applies observed boundary
spaces; the offset advances by the computed (unclamped) length. -/
def proportionalAux (originalLength translatedLength : Nat)
    (translated : String) : List String → Nat → List String
| [], _ => []
| nodeText :: rest, translatedIndex =>
    let translatedNodeLength :=
      ceilDivNat (translatedLength * nodeText.length) originalLength
    let slice := if 0 < translatedLength then
        jsSubstr translated translatedIndex translatedNodeLength
      else nodeText
    spaceFix nodeText slice ::
      proportionalAux originalLength translatedLength translated rest
        (translatedIndex + translatedNodeLength)

/-- The proportional branch entered with offset 0, measuring the parent
text and the translated text (pdfService.ts lines 394-397). -/
def proportionalTexts (texts : List String) (originalText translated : String) :
    List String :=
  proportionalAux originalText.length translated.length translated texts 0

/-- The word-wise rebuild of one run (pdfService.ts lines 466-489): for
each (original word, translated word) pair, an empty translated word
falls back to the original; the original word is located from lastIndex,
its preceding spacing copied and the translated word appended; a word
not found is skipped without advancing.  The tail of the run past the
last consumed word is appended at the end. -/
def rebuildWordsAux (nodeText : String) :
    List (String × String) → Nat → String → String
| [], lastIndex, out => out ++ jsSubstrFrom nodeText lastIndex
| (word, tword) :: rest, lastIndex, out =>
    let tw := if tword.data.isEmpty then word else tword
    match jsIndexOfFrom nodeText word lastIndex with
    | some wordStart =>
        rebuildWordsAux nodeText rest (wordStart + word.length)
          (out ++ jsSubstring nodeText lastIndex wordStart ++ tw)
    | none => rebuildWordsAux nodeText rest lastIndex out

/-- The per-run translated text on the word-aligned path: the zip runs
over min(nodeWords, nodeTranslatedWords) pairs exactly as the for loop
bound at line 473. -/
def alignedNodeText (nodeText : String)
    (nodeWords nodeTranslatedWords : List String) : String :=
  rebuildWordsAux nodeText (nodeWords.zip nodeTranslatedWords) 0 ""

/-- The word-aligned replacement loop (pdfService.ts lines 437-496):
runs without words and runs for which no translated words remain keep
their text and do not advance wordIndex; otherwise the run consumes
min(own words, remaining translated words) translated words, an empty
rebuilt text falls back to the original run text, and wordIndex
advances by the words consumed. -/
def alignedTexts (translatedWords : List String) :
    List String → Nat → List String
| [], _ => []
| nodeText :: rest, wordIndex =>
    let nodeWords := wsTokens nodeText
    if nodeWords.isEmpty then
      nodeText :: alignedTexts translatedWords rest wordIndex
    else
      let wordsToTake := min nodeWords.length
        (translatedWords.length - wordIndex)
      if wordsToTake = 0 then
        nodeText :: alignedTexts translatedWords rest wordIndex
      else
        let nodeTranslatedWords :=
          (translatedWords.drop wordIndex).take wordsToTake
        let nodeTranslatedText :=
          alignedNodeText nodeText nodeWords nodeTranslatedWords
        let safe := if nodeTranslatedText.data.isEmpty then nodeText
          else nodeTranslatedText
        safe :: alignedTexts translatedWords rest (wordIndex + wordsToTake)

/-- The multi-run dispatch of replaceTextWhilePreservingTags
(pdfService.ts lines 377-497): token-count mismatch selects the
proportional redistribution, a match the word-aligned substitution. -/
def multiRunTexts (texts : List String) (originalText translated : String) :
    List String :=
  if (wsTokens originalText).length ≠ (wsTokens translated).length then
    proportionalTexts texts originalText translated
  else
    alignedTexts (wsTokens translated) texts 0

/-- PdfService.replaceTextWhilePreservingTags (pdfService.ts lines
319-508) on the cheerio tree of its html argument: identical texts are a
no-op returning the original markup (line 325); otherwise the literal
string undefined is first stripped from the translated text (line 328);
a single content-bearing text run is replaced wholesale and the markup
returned at once, without the final sanitizer (lines 369-375); with
several runs the branch-selected run texts are substituted and the
serialized result passed through the three sanitizer passes (lines
499-507).  String lengths count Unicode scalars where JS counts UTF-16
units; the two agree on all claim-relevant inputs. -/
def replaceTextWhilePreservingTags (tree : List HNode)
    (originalText translatedText : String) : String :=
  if originalText = translatedText then renderNodes tree
  else
    let translated := jsStripAll translatedText "undefined"
    let texts := collectTextsList tree
    if texts.length = 1 then renderNodes (substTexts tree [translated])
    else
      jsStrip3 (renderNodes
        (substTexts tree (multiRunTexts texts originalText translated)))

/-- Length of the proportional slice of one run: the exact value of
Math.ceil(translatedLength * runLength / originalLength)
(pdfService.ts lines 405-406). -/
def propLen (originalLength translatedLength : Nat) (t : String) : Nat :=
  ceilDivNat (translatedLength * t.length) originalLength

/-- The running offset before run i on the proportional path: the sum of
the computed slice lengths of the earlier runs. -/
def propOffset (originalLength translatedLength : Nat)
    (texts : List String) (i : Nat) : Nat :=
  ((texts.take i).map (propLen originalLength translatedLength)).sum

/-- A rebuild function that throws on the node whose captured markup is
the string A and succeeds elsewhere, exhibiting a per-node internal
error inside the application loop. -/
def faultyRebuild : String → String → String → Except String String :=
  fun h _ t => if h = "A" then .error "boom" else .ok t

/-- A two-element contentMap as built by translateHtml lines 129-155. -/
def demoContentMap : List (String × ElementMapping) :=
  [("elem_0", ⟨some "A", "alpha"⟩), ("elem_1", ⟨some "B", "beta"⟩)]

/-- The matching initial document state. -/
def demoDom : List (String × String) := [("elem_0", "A"), ("elem_1", "B")]

/-- Whether a number list is non-decreasing from left to right. -/
def nondecreasingB : List Nat → Bool
| [] => true
| [_] => true
| a :: b :: rest => decide (a ≤ b) && nondecreasingB (b :: rest)

/-- Claim C7 counterexample: a job created at submission carries
currentStep UPLOAD, not the null step the claim requires; status and
percentage are as claimed. -/
theorem C7_counterexample :
    (createJob "en").currentStep = some ProcessStep.UPLOAD ∧
    (createJob "en").currentStep ≠ none ∧
    (createJob "en").status = JobStatus.QUEUED ∧
    (createJob "en").percentage = 0 := by
  refine ⟨rfl, ?_, rfl, rfl⟩
  decide

/-- Claim C7 amended: for every language argument, creating a job at
submission produces a job with status QUEUED, percentage 0, and
currentStep already set to UPLOAD (not null), carrying the requested
language. -/
theorem C7_amended (language : String) :
    (createJob language).status = JobStatus.QUEUED ∧
    (createJob language).currentStep = some ProcessStep.UPLOAD ∧
    (createJob language).percentage = 0 ∧
    (createJob language).language = language :=
  ⟨rfl, rfl, rfl, rfl⟩

/-- Claim C1 counterexample: the job-progress updater accepts an update
on a COMPLETED job and changes its status, currentStep and percentage. -/
theorem C1_counterexample :
    (Job.status ⟨.COMPLETED, some .GENERATE, 100, "en"⟩).isTerminal = true ∧
    updateJobProgress ⟨.COMPLETED, some .GENERATE, 100, "en"⟩
        .PROCESSING .TRANSLATE 75 =
      ⟨.PROCESSING, some .TRANSLATE, 75, "en"⟩ :=
  ⟨rfl, rfl⟩

/-- Claim C1 amended: updateJobProgress enforces no terminal-state
guard — it overwrites status, currentStep and percentage with the
requested values for every current job state, terminal states included;
the no-transition-out-of-terminal property holds only operationally, in
that every write sequence the pipeline runner can produce places its
single terminal write last, so no update is ever issued on a job already
COMPLETED or FAILED. -/
theorem C1_amended :
    (∀ (j : Job) (s : JobStatus) (p : ProcessStep) (n : Nat),
        (updateJobProgress j s p n).status = s ∧
        (updateJobProgress j s p n).currentStep = some p ∧
        (updateJobProgress j s p n).percentage = n) ∧
    (∀ o1 o2 o3 : StageOutcome,
        ∀ u ∈ (pipelineModel o1 o2 o3).dropLast, u.status.isTerminal = false) := by
  refine ⟨fun j s p n => ⟨rfl, rfl, rfl⟩, ?_⟩
  intro o1 o2 o3
  cases o1 <;> cases o2 <;> cases o3 <;> decide

/-- Witness for C1 amended at concrete inputs. -/
theorem C1_amended_witness :
    (updateJobProgress (createJob "en") .PROCESSING .UPLOAD 25).status =
      JobStatus.PROCESSING ∧
    (JobUpdate.mk .QUEUED .UPLOAD 0).status.isTerminal = false :=
  ⟨(C1_amended.1 (createJob "en") .PROCESSING .UPLOAD 25).1,
   C1_amended.2 .ok .ok .ok ⟨.QUEUED, .UPLOAD, 0⟩ (by decide)⟩

/-- Claim C6 counterexample: a failure inside processJob writes
FAILED/UPLOAD/0 after the 25 percent upload update, and a failure inside
generateFinalPdfs after its GENERATE write drops the percentage from 100
back to 75; in both traces the FAILED percentage is below the percentage
last reached and the percentage sequence is not non-decreasing. -/
theorem C6_counterexample :
    (pipelineModel .errBefore .ok .ok =
      [⟨.QUEUED, .UPLOAD, 0⟩, ⟨.PROCESSING, .UPLOAD, 25⟩,
       ⟨.FAILED, .UPLOAD, 0⟩]) ∧
    (pipelineModel .ok .ok .errAfter =
      [⟨.QUEUED, .UPLOAD, 0⟩, ⟨.PROCESSING, .UPLOAD, 25⟩,
       ⟨.PROCESSING, .EXTRACT, 50⟩, ⟨.PROCESSING, .TRANSLATE, 75⟩,
       ⟨.PROCESSING, .GENERATE, 100⟩, ⟨.FAILED, .TRANSLATE, 75⟩]) ∧
    nondecreasingB ((pipelineModel .errBefore .ok .ok).map
        (fun u => u.percentage)) = false ∧
    nondecreasingB ((pipelineModel .ok .ok .errAfter).map
        (fun u => u.percentage)) = false := by
  refine ⟨rfl, rfl, ?_, ?_⟩ <;> decide

/-- Claim C6 amended: across every pipeline write sequence the
percentage is non-decreasing over the non-FAILED updates, and a fatal
error writes FAILED at the fixed percentage tied to the step its handler
names (UPLOAD 0, EXTRACT 50, TRANSLATE 75), which can be strictly below
the percentage last reached. -/
theorem C6_amended (o1 o2 o3 : StageOutcome) :
    nondecreasingB (((pipelineModel o1 o2 o3).filter
        (fun u => u.status ≠ .FAILED)).map (fun u => u.percentage)) = true ∧
    ∀ u ∈ pipelineModel o1 o2 o3,
      u.status = .FAILED → u.percentage = stepPct u.step := by
  cases o1 <;> cases o2 <;> cases o3 <;> decide

/-- Witness for C6 amended at concrete inputs. -/
theorem C6_amended_witness :
    nondecreasingB (((pipelineModel .ok .ok .ok).filter
        (fun u => u.status ≠ .FAILED)).map (fun u => u.percentage)) = true ∧
    (JobUpdate.mk .FAILED .TRANSLATE 75).percentage = stepPct .TRANSLATE :=
  ⟨(C6_amended .ok .ok .ok).1,
   (C6_amended .ok .ok .errAfter).2 ⟨.FAILED, .TRANSLATE, 75⟩ (by decide) rfl⟩

/-- Claim C8 counterexample: with a single file whose pdf2htmlEX
conversion fails, extractAndTranslate produces no extracted content for
it yet issues the very same forward write sequence — the job proceeds to
TRANSLATE, GENERATE and COMPLETED and never becomes FAILED at EXTRACT. -/
theorem C8_counterexample :
    (extractAndTranslateModel [false] .ok .ok).2 = [] ∧
    (extractAndTranslateModel [false] .ok .ok).1 =
      [⟨.PROCESSING, .TRANSLATE, 75⟩, ⟨.PROCESSING, .GENERATE, 100⟩,
       ⟨.COMPLETED, .GENERATE, 100⟩] := by
  exact ⟨rfl, rfl⟩

/-- Claim C8 amended: a conversion-tool failure while extracting one
file is caught inside the per-file loop: the file contributes no
extracted content (so it is excluded from the later stages), the stage
still advances the job to TRANSLATE/75 and schedules generation, and no
FAILED-at-EXTRACT write occurs; FAILED/EXTRACT/50 is written only when
an error escapes the stage body outside the per-file loop. -/
theorem C8_amended (convertOk : List Bool) (o3 : StageOutcome) :
    ((extractAndTranslateModel convertOk .ok o3).1.head? =
        some ⟨.PROCESSING, .TRANSLATE, 75⟩) ∧
    (∀ u ∈ (extractAndTranslateModel convertOk .ok o3).1,
        u.status = .FAILED → u.step ≠ .EXTRACT) ∧
    (∀ i ∈ (extractAndTranslateModel convertOk .ok o3).2,
        convertOk.getD i false = true) ∧
    ((extractAndTranslateModel convertOk .errBefore o3).1 =
        [⟨.FAILED, .EXTRACT, 50⟩]) := by
  refine ⟨rfl, ?_, ?_, rfl⟩
  · show ∀ u ∈ extractAndTranslateWrites .ok o3,
      u.status = .FAILED → u.step ≠ .EXTRACT
    cases o3 <;> decide
  · intro i hi
    have : i ∈ extractedContents convertOk := hi
    rw [extractedContents, List.mem_filter] at this
    exact this.2

/-- Witness for C8 amended at concrete inputs. -/
theorem C8_amended_witness :
    ((extractAndTranslateModel [false] .ok .ok).1.head? =
        some ⟨.PROCESSING, .TRANSLATE, 75⟩) ∧
    ((extractAndTranslateModel [false] .errBefore .ok).1 =
        [⟨.FAILED, .EXTRACT, 50⟩]) :=
  ⟨(C8_amended [false] .ok).1, (C8_amended [false] .ok).2.2.2⟩

theorem sseTicks_countP_le_one (ticks : List JobStatus) :
    (sseTicks ticks).countP (fun s => s.isTerminal) ≤ 1 := by
  induction ticks with
  | nil => simp [sseTicks]
  | cons t rest ih =>
      cases ht : t.isTerminal with
      | true => simp [sseTicks, ht, List.countP_cons]
      | false => simpa [sseTicks, ht, List.countP_cons] using ih

theorem sseTicks_dropLast_not_terminal (ticks : List JobStatus) :
    ∀ s ∈ (sseTicks ticks).dropLast, s.isTerminal = false := by
  induction ticks with
  | nil => intro s hs; simp [sseTicks] at hs
  | cons t rest ih =>
      intro s hs
      cases ht : t.isTerminal with
      | true => simp [sseTicks, ht] at hs
      | false =>
          rw [sseTicks] at hs
          simp only [ht, Bool.false_eq_true, if_false] at hs
          rcases hl : sseTicks rest with _ | ⟨a, l⟩
          · rw [hl] at hs; simp at hs
          · rw [hl] at hs
            rw [List.dropLast_cons₂] at hs
            rcases List.mem_cons.mp hs with rfl | hs'
            · exact ht
            · exact ih s (by rw [hl]; exact hs')

/-- Claim C10 counterexample: an observer connecting to a job that is
already COMPLETED receives the terminal snapshot twice — once from the
unconditional initial sendEvent and once from the first interval tick,
which only then closes the stream. -/
theorem C10_counterexample :
    sseEvents .COMPLETED [.COMPLETED] = [.COMPLETED, .COMPLETED] ∧
    (sseEvents .COMPLETED [.COMPLETED]).countP (fun s => s.isTerminal) = 2 := by
  exact ⟨rfl, rfl⟩

/-- Claim C10 amended: the interval ticks deliver a terminal snapshot at
most once and close the stream with that delivery (every tick delivery
except the last is non-terminal); the route additionally pushes one
unconditional initial snapshot at connect, so an observer connected
before termination still receives the terminal state exactly once, while
an observer connecting to an already-terminal job receives it twice. -/
theorem C10_amended (initial : JobStatus) (ticks : List JobStatus) :
    (sseEvents initial ticks = initial :: sseTicks ticks) ∧
    ((sseTicks ticks).countP (fun s => s.isTerminal) ≤ 1) ∧
    (∀ s ∈ (sseTicks ticks).dropLast, s.isTerminal = false) ∧
    (initial.isTerminal = false →
      (sseEvents initial ticks).countP (fun s => s.isTerminal) ≤ 1) := by
  refine ⟨rfl, sseTicks_countP_le_one ticks,
    sseTicks_dropLast_not_terminal ticks, ?_⟩
  intro h
  simpa [sseEvents, List.countP_cons, h] using sseTicks_countP_le_one ticks

/-- Witness for C10 amended at concrete inputs. -/
theorem C10_amended_witness :
    (sseEvents .PROCESSING [.PROCESSING, .COMPLETED] =
      .PROCESSING :: sseTicks [.PROCESSING, .COMPLETED]) ∧
    ((sseEvents .PROCESSING [.PROCESSING, .COMPLETED]).countP
        (fun s => s.isTerminal) ≤ 1) :=
  ⟨(C10_amended .PROCESSING [.PROCESSING, .COMPLETED]).1,
   (C10_amended .PROCESSING [.PROCESSING, .COMPLETED]).2.2.2 (by decide)⟩

theorem makeBatchesLoop_spec (chunks : List TextChunk) :
    ∀ (cur : List TextChunk) (size : Nat), size = batchSize cur →
      (2 ≤ cur.length → batchSize cur ≤ MAX_BATCH_SIZE) →
      (makeBatchesLoop chunks cur size).flatten = cur ++ chunks ∧
      ∀ b ∈ makeBatchesLoop chunks cur size,
        b ≠ [] ∧ (MAX_BATCH_SIZE < batchSize b → b.length = 1) := by
  induction chunks with
  | nil =>
      intro cur size hsz hinv
      rw [makeBatchesLoop]
      by_cases hc : 0 < cur.length
      · rw [if_pos hc]
        refine ⟨by simp, ?_⟩
        intro b hb
        rw [List.mem_singleton] at hb
        subst hb
        refine ⟨by simpa using List.length_pos.mp hc, ?_⟩
        intro hover
        by_contra hlen
        have h2 : 2 ≤ b.length := by omega
        exact absurd (hinv h2) (by omega)
      · rw [if_neg hc]
        have : cur = [] := List.length_eq_zero.mp (by omega)
        subst this
        simp
  | cons c rest ih =>
      intro cur size hsz hinv
      rw [makeBatchesLoop]
      by_cases hcond : MAX_BATCH_SIZE < size + c.text.length ∧ 0 < cur.length
      · rw [if_pos hcond]
        have ih' := ih [c] c.text.length (by simp [batchSize])
          (by intro h2; simp at h2)
        refine ⟨?_, ?_⟩
        · rw [List.flatten_cons, ih'.1]
          simp
        · intro b hb
          rcases List.mem_cons.mp hb with rfl | hb'
          · refine ⟨by simpa using List.length_pos.mp hcond.2, ?_⟩
            intro hover
            by_contra hlen
            have h2 : 2 ≤ b.length := by
              have := List.length_pos.mpr (List.length_pos.mp hcond.2)
              omega
            exact absurd (hinv h2) (by omega)
          · exact ih'.2 b hb'
      · rw [if_neg hcond]
        have hsz' : size + c.text.length = batchSize (cur ++ [c]) := by
          simp [batchSize, hsz]
        have hinv' : 2 ≤ (cur ++ [c]).length →
            batchSize (cur ++ [c]) ≤ MAX_BATCH_SIZE := by
          intro h2
          have hcur : 0 < cur.length := by
            simp only [List.length_append, List.length_singleton] at h2
            omega
          have hle : ¬ MAX_BATCH_SIZE < size + c.text.length := by
            intro hlt
            exact hcond ⟨hlt, hcur⟩
          omega
        have ih' := ih (cur ++ [c]) (size + c.text.length) hsz' hinv'
        refine ⟨?_, ih'.2⟩
        rw [ih'.1]
        simp

/-- Claim C2: the batcher is the greedy accumulation loop of the source;
for every chunk sequence, concatenating the produced batches in order
restores exactly the input sequence, every batch is non-empty, and a
batch whose character sum exceeds the 4000-character budget is a
singleton (a single chunk that alone exceeds the budget). -/
theorem C2_batching (chunks : List TextChunk) :
    (makeBatches chunks).flatten = chunks ∧
    ∀ b ∈ makeBatches chunks,
      b ≠ [] ∧ (MAX_BATCH_SIZE < batchSize b → b.length = 1) := by
  have h := makeBatchesLoop_spec chunks [] 0 (by simp [batchSize])
    (by intro h2; simp at h2)
  rw [makeBatches]
  exact ⟨by simpa using h.1, h.2⟩

/-- Witness for C2 at a concrete chunk list. -/
theorem C2_batching_witness :
    (makeBatches [⟨"c1", "hello", none⟩, ⟨"c2", "world", none⟩]).flatten =
      [⟨"c1", "hello", none⟩, ⟨"c2", "world", none⟩] ∧
    ([⟨"c1", "hello", none⟩, ⟨"c2", "world", none⟩] : List TextChunk) ≠ [] ∧
    (MAX_BATCH_SIZE <
        batchSize [⟨"c1", "hello", none⟩, ⟨"c2", "world", none⟩] →
      ([⟨"c1", "hello", none⟩, ⟨"c2", "world", none⟩] :
          List TextChunk).length = 1) :=
  ⟨(C2_batching [⟨"c1", "hello", none⟩, ⟨"c2", "world", none⟩]).1,
   ((C2_batching [⟨"c1", "hello", none⟩, ⟨"c2", "world", none⟩]).2
      [⟨"c1", "hello", none⟩, ⟨"c2", "world", none⟩] (by decide)).1,
   ((C2_batching [⟨"c1", "hello", none⟩, ⟨"c2", "world", none⟩]).2
      [⟨"c1", "hello", none⟩, ⟨"c2", "world", none⟩] (by decide)).2⟩

theorem dispatchFrom_length (outcome : Nat → BatchOutcome) :
    ∀ (batches : List (List TextChunk)) (k : Nat),
      (dispatchFrom outcome k batches).length = batches.length := by
  intro batches
  induction batches with
  | nil => intro k; rfl
  | cons b rest ih => intro k; simp [dispatchFrom, ih (k + 1)]

theorem dispatchFrom_getElem (outcome : Nat → BatchOutcome) :
    ∀ (batches : List (List TextChunk)) (k i : Nat),
      (dispatchFrom outcome k batches)[i]? =
        (batches[i]?).map (fun b => processBatch b (outcome (k + i))) := by
  intro batches
  induction batches with
  | nil => intro k i; simp [dispatchFrom]
  | cons b rest ih =>
      intro k i
      cases i with
      | zero => simp [dispatchFrom]
      | succ n =>
          rw [dispatchFrom, List.getElem?_cons_succ, List.getElem?_cons_succ,
            ih (k + 1) n]
          have hk : k + 1 + n = k + (n + 1) := by omega
          rw [hk]

/-- Claim C3: the dispatch settles with exactly one result group per
batch, the group at index i is computed from batch i and its own request
outcome alone (so one batch's failure cannot abort or alter a sibling's
group), and a batch whose request fails in transport, returns empty
content, or returns unparsable JSON contributes the empty group; every
branch of processBatch resolves, so no failure reaches the caller. -/
theorem C3_dispatch (batches : List (List TextChunk))
    (outcome : Nat → BatchOutcome) :
    ((dispatchBatches batches outcome).length = batches.length) ∧
    (∀ i : Nat, (dispatchBatches batches outcome)[i]? =
      (batches[i]?).map (fun b => processBatch b (outcome i))) ∧
    (∀ b : List TextChunk,
      processBatch b .transportError = [] ∧
      processBatch b .emptyContent = [] ∧
      processBatch b .unparsable = []) := by
  refine ⟨dispatchFrom_length outcome batches 0, ?_, ?_⟩
  · intro i
    simpa using dispatchFrom_getElem outcome batches 0 i
  · intro b
    cases hb : b.isEmpty <;> simp [processBatch, hb]

/-- Claim C4 counterexample: with a rebuild that throws on the first
node, the application loop aborts with that error — the error is thrown
out of the reinsertion step and the second node, which on its own would
have been rebuilt successfully, is never processed. -/
theorem C4_counterexample :
    (applyTranslationGroups faultyRebuild demoContentMap
        [[⟨"elem_0", "x", none⟩, ⟨"elem_1", "y", none⟩]] demoDom =
      .error "boom") ∧
    (applyTranslationGroups faultyRebuild demoContentMap
        [[⟨"elem_1", "y", none⟩]] demoDom =
      .ok [("elem_0", "A"), ("elem_1", "y")]) :=
  ⟨rfl, rfl⟩

/-- Claim C4 amended: the application loop has no per-node error
handling — when the rebuild of the current node throws, the whole loop
aborts with that error (it is caught only by the outer catch of
translateHtml, which rethrows a file-level failure), so the remaining
nodes are never processed; when the rebuild succeeds, the node's markup
is overwritten and the loop continues with the rest. -/
theorem C4_amended :
    (∀ (rebuild : String → String → String → Except String String)
        (cmap : List (String × ElementMapping)) (item : TextChunk)
        (rest : List TextChunk) (dom : List (String × String))
        (em : ElementMapping) (h e : String),
        cmap.lookup item.id = some em → em.html = some h →
        rebuild h em.parentText item.text = .error e →
        applyItems rebuild cmap (item :: rest) dom = .error e) ∧
    (∀ (rebuild : String → String → String → Except String String)
        (cmap : List (String × ElementMapping)) (item : TextChunk)
        (rest : List TextChunk) (dom : List (String × String))
        (em : ElementMapping) (h r : String),
        cmap.lookup item.id = some em → em.html = some h →
        rebuild h em.parentText item.text = .ok r →
        applyItems rebuild cmap (item :: rest) dom =
          applyItems rebuild cmap rest (setAssoc dom item.id r)) := by
  constructor
  · intro rebuild cmap item rest dom em h e hlook hhtml herr
    simp [applyItems, hlook, hhtml, herr]
  · intro rebuild cmap item rest dom em h r hlook hhtml hok
    simp [applyItems, hlook, hhtml, hok]

/-- Witness for C4 amended at concrete inputs. -/
theorem C4_amended_witness :
    applyItems faultyRebuild demoContentMap [⟨"elem_0", "x", none⟩] demoDom =
      .error "boom" :=
  C4_amended.1 faultyRebuild demoContentMap ⟨"elem_0", "x", none⟩ [] demoDom
    ⟨some "A", "alpha"⟩ "A" "boom" rfl rfl rfl

theorem proportionalAux_getElem (oL tL : Nat) (tr : String) (htr : 0 < tL) :
    ∀ (texts : List String) (start i : Nat),
      (proportionalAux oL tL tr texts start)[i]? =
        (texts[i]?).map (fun t => spaceFix t
          (jsSubstr tr (start + propOffset oL tL texts i) (propLen oL tL t))) := by
  intro texts
  induction texts with
  | nil => intro start i; simp [proportionalAux]
  | cons t rest ih =>
      intro start i
      cases i with
      | zero =>
          simp [proportionalAux, propOffset, propLen, htr]
      | succ n =>
          rw [proportionalAux]
          simp only [List.getElem?_cons_succ]
          rw [ih (start + ceilDivNat (tL * t.length) oL) n]
          simp [propOffset, propLen, List.take_succ_cons, Nat.add_assoc]

theorem spaceFix_self (t : String) : spaceFix t t = t := by
  simp [spaceFix]

theorem proportionalAux_zero_len (oL : Nat) (tr : String) :
    ∀ (texts : List String) (start : Nat),
      proportionalAux oL 0 tr texts start = texts := by
  intro texts
  induction texts with
  | nil => intro start; rfl
  | cons t rest ih =>
      intro start
      rw [proportionalAux]
      simp only [Nat.lt_irrefl, if_false, ih, spaceFix_self]

/-- Claim C5 counterexample: with an empty translated text (zero
whitespace tokens, hence always a token-count mismatch against a
non-empty original), the proportional branch takes the fallback of
pdfService.ts lines 409-412 and keeps each run's original text, while
the claimed formula assigns the (empty) slice of ceiling-computed
length — the per-run equation is false there, both on the redistribution
routine and through the full reconstruction. -/
theorem C5_counterexample :
    ((proportionalTexts ["abc"] "abc" "")[0]? = some "abc") ∧
    (((["abc"] : List String)[0]?).map (fun t => spaceFix t
        (jsSubstr ""
          (propOffset ("abc" : String).length ("" : String).length ["abc"] 0)
          (propLen ("abc" : String).length ("" : String).length t))) =
      some "") ∧
    (some ("abc" : String) ≠ some ("" : String)) ∧
    (replaceTextWhilePreservingTags
        [HNode.tag "span" [HNode.text "ab"], HNode.tag "span" [HNode.text "cd"]]
        "abcd" "" = "<span>ab</span><span>cd</span>") := by
  refine ⟨by decide, by decide, by decide, by decide⟩

/-- Claim C5 amended: when the translated text is non-empty, the
proportional-redistribution path assigns each content-bearing run the
contiguous slice of the translated text at the running offset whose
length is the exact ceiling of
translatedLength * runLength / originalLength, with observed boundary
spaces re-applied — in particular, through the full reconstruction, runs
of lengths 10 and 16 (parent text of 26 characters) against a
20-character translation receive 8 and the remaining 12 characters;
when the translated text is empty, every run keeps its original text
unchanged instead of the claimed slice.  The Math.ceil of the source is
computed in floating point; the model uses the exact rational ceiling of
the same expression. -/
theorem C5_amended :
    (∀ (texts : List String) (originalText translated : String) (i : Nat),
        0 < translated.length →
        (proportionalTexts texts originalText translated)[i]? =
          (texts[i]?).map (fun t => spaceFix t
            (jsSubstr translated
              (propOffset originalText.length translated.length texts i)
              (propLen originalText.length translated.length t)))) ∧
    (∀ (texts : List String) (originalText translated : String) (i : Nat),
        translated.length = 0 →
        (proportionalTexts texts originalText translated)[i]? = texts[i]?) ∧
    (replaceTextWhilePreservingTags
        [HNode.tag "span" [HNode.text "aaaaaaaaaa"],
         HNode.tag "span" [HNode.text "bbbbbbbbbbbbbbbb"]]
        "aaaaaaaaaabbbbbbbbbbbbbbbb" "cccccccccc ccccccccc" =
      "<span>cccccccc</span><span>cc ccccccccc</span>") ∧
    (propLen 26 20 "aaaaaaaaaa" = 8 ∧
      (jsSubstr "cccccccccc ccccccccc" 0 8).length = 8 ∧
      propLen 26 20 "bbbbbbbbbbbbbbbb" = 13 ∧
      (jsSubstr "cccccccccc ccccccccc" 8 13).length = 12) := by
  refine ⟨?_, ?_, by decide, by decide⟩
  · intro texts originalText translated i htr
    simpa [proportionalTexts] using
      proportionalAux_getElem originalText.length translated.length translated
        htr texts 0 i
  · intro texts originalText translated i htr
    rw [proportionalTexts, htr, proportionalAux_zero_len]

/-- Witness for C5 amended at concrete inputs. -/
theorem C5_amended_witness :
    ((proportionalTexts ["ab", "cd"] "abcd" "xy")[0]? =
      ((["ab", "cd"] : List String)[0]?).map (fun t => spaceFix t
        (jsSubstr "xy" (propOffset ("abcd" : String).length
          ("xy" : String).length ["ab", "cd"] 0)
          (propLen ("abcd" : String).length ("xy" : String).length t)))) ∧
    ((proportionalTexts ["ab", "cd"] "abcd" "")[1]? =
      (["ab", "cd"] : List String)[1]?) :=
  ⟨C5_amended.1 ["ab", "cd"] "abcd" "xy" 0 (by decide),
   C5_amended.2.1 ["ab", "cd"] "abcd" "" 1 (by decide)⟩

/-- Claim C9 counterexample: on the single-run reconstruction path only
the literal undefined is stripped from the translated text; a leaked
literal null survives into the returned markup. -/
theorem C9_counterexample :
    (replaceTextWhilePreservingTags [HNode.tag "span" [HNode.text "x"]]
        "x" "null" = "<span>null</span>") ∧
    (containsSubstrB
        (replaceTextWhilePreservingTags [HNode.tag "span" [HNode.text "x"]]
          "x" "null") "null" = true) := by
  exact ⟨by decide, by decide⟩

theorem removeAllAux_of_not_contains (pat : List Char) :
    ∀ (fuel : Nat) (l : List Char),
      containsSubAux pat l = false → removeAllAux pat fuel l = l := by
  intro fuel
  induction fuel with
  | zero => intro l hl; cases l <;> rfl
  | succ n ih =>
      intro l hl
      cases l with
      | nil => rfl
      | cons c rest =>
          rw [containsSubAux, Bool.or_eq_false_iff] at hl
          rw [removeAllAux, if_neg (by simp [hl.1]), ih rest hl.2]

/-- Claim C9 amended: placeholder stripping is a set of single
left-to-right passes and is path-dependent — undefined is removed from
the translated text on every path, but the final pass removing
undefined, null and NaN from the serialized markup runs only on the
multi-run reconstruction paths; the single-run path returns its markup
without that final pass, so leaked null or NaN tokens can survive there.
A pass leaves a string containing no occurrence of its pattern
unchanged. -/
theorem C9_amended :
    (∀ (tree : List HNode) (originalText translatedText : String),
        originalText ≠ translatedText →
        (collectTextsList tree).length = 1 →
        replaceTextWhilePreservingTags tree originalText translatedText =
          renderNodes (substTexts tree [jsStripAll translatedText "undefined"])) ∧
    (∀ (tree : List HNode) (originalText translatedText : String),
        originalText ≠ translatedText →
        (collectTextsList tree).length ≠ 1 →
        replaceTextWhilePreservingTags tree originalText translatedText =
          jsStrip3 (renderNodes (substTexts tree
            (multiRunTexts (collectTextsList tree) originalText
              (jsStripAll translatedText "undefined"))))) ∧
    (∀ s pat : String, containsSubstrB s pat = false → jsStripAll s pat = s) := by
  refine ⟨?_, ?_, ?_⟩
  · intro tree originalText translatedText hne hone
    rw [replaceTextWhilePreservingTags, if_neg hne, if_pos hone]
  · intro tree originalText translatedText hne hone
    rw [replaceTextWhilePreservingTags, if_neg hne, if_neg hone]
  · intro s pat hs
    rw [jsStripAll, removeAllAux_of_not_contains pat.data s.data.length s.data hs]

/-- Witness for C9 amended at concrete inputs. -/
theorem C9_amended_witness :
    replaceTextWhilePreservingTags [HNode.tag "span" [HNode.text "x"]]
        "x" "NaN zz" =
      renderNodes (substTexts [HNode.tag "span" [HNode.text "x"]]
        [jsStripAll "NaN zz" "undefined"]) :=
  C9_amended.1 [HNode.tag "span" [HNode.text "x"]] "x" "NaN zz"
    (by decide) (by decide)

end PdfLingua
